import Mathlib

/-!
Formal model of the MML compiler in `src/mml.c` (atinysynth-pic), with theorems
settling the specification claims.  C `double` arithmetic is modelled over `ℚ`,
C `int` over `ℤ`; the machine rounding and cast operations are modelled
explicitly.  External constants that live outside the reviewed sources are kept
as parameters: `S` is the sample rate `synth_freq` (supplied by the host
application) and `U` is `ADSR_TIME_UNITS` (defined in the envelope engine
headers), while `pw` stands for the C library function `pow(2, -)` used only to
turn note codes into frequencies (no settled claim depends on a pitch value).

The rational operations `qadd`, `qsub`, `qmul`, `qdiv`, `qpow` below are
kernel-computable versions of `+`, `-`, `*`, `/`, `^` on `ℚ` (the library
operations are sealed and do not evaluate inside `decide`); the bridge lemmas
`qadd_eq` and friends prove they agree with the standard operations, so the
embedding is literally arithmetic over `ℚ`.
-/

def qadd (a b : ℚ) : ℚ := Rat.divInt (a.num * b.den + b.num * a.den) (a.den * b.den)

def qsub (a b : ℚ) : ℚ := Rat.divInt (a.num * b.den - b.num * a.den) (a.den * b.den)

def qmul (a b : ℚ) : ℚ := Rat.divInt (a.num * b.num) (a.den * b.den)

def qdiv (a b : ℚ) : ℚ := Rat.divInt (a.num * b.den) (a.den * b.num)

def qpow (a : ℚ) : ℕ → ℚ
  | 0 => 1
  | n + 1 => qmul (qpow a n) a

/-- C library `round` (round half away from zero), on rationals.  `Rat.floor` is used
rather than `Int.floor`, and `qadd`/`qsub` rather than the sealed library operations,
so that the definition evaluates inside the kernel. -/
def cround (q : ℚ) : ℤ :=
  if 0 ≤ q then Rat.floor (qadd q (Rat.divInt 1 2)) else -Rat.floor (qsub (Rat.divInt 1 2) q)

/-- C cast from `double` to `int`: truncation toward zero. -/
def ratToInt (q : ℚ) : ℤ := Int.tdiv q.num q.den

/-- Conversion to `uint8_t` (mod 256). -/
def u8 (x : ℤ) : ℤ := Int.emod x 256

/-- Conversion to `uint16_t` (mod 65536); the spec fixes the stored duration field of a
frame at 16 bits (`sequencer.h` itself is outside the reviewed sources). -/
def u16 (x : ℤ) : ℤ := Int.emod x 65536

/-- Numeric value of a C `char` (signed on the target) holding the given character. -/
def c_char (c : Char) : ℤ :=
  if Int.emod (c.toNat : ℤ) 256 < 128 then Int.emod (c.toNat : ℤ) 256
  else Int.emod (c.toNat : ℤ) 256 - 256

/-- Channel running-time accumulators (`running_time` in `struct mml_channel_state_t`). -/
structure RunningTime where
  seconds : ℚ
  time_units : ℤ
deriving DecidableEq

/-- Effective note length after the dot loop in `get_adsr_time_scale`
(`for (; dots > 0; dots--) l /= 1.5;`). -/
def lengthWithDots (length : ℤ) (dots : ℕ) : ℚ :=
  qdiv (length : ℚ) (qpow (Rat.divInt 3 2) dots)

/-- Function `get_adsr_time_scale` of `src/mml.c` (lines 172-187): compute the note
duration in `ADSR_TIME_UNITS` steps from the delta to the rounded running total, and
update the running-time accumulators. -/
def get_adsr_time_scale (S : ℚ) (U tempo length : ℤ) (dots : ℕ) (rt : RunningTime) :
    ℤ × RunningTime :=
  let l := lengthWithDots length dots
  let seconds := qdiv (qdiv ((60 * 4 : ℤ) : ℚ) ((tempo : ℤ) : ℚ)) l
  let sec2 := qadd rt.seconds seconds
  let total : ℤ := cround (qmul sec2 S)
  let ts : ℤ := cround (qdiv ((total - rt.time_units : ℤ) : ℚ) ((U : ℤ) : ℚ))
  (ts, ⟨sec2, rt.time_units + ts * U⟩)

/-- Run the duration quantizer over a list of (length, dots) notes, returning the
emitted time scales and the final running time.  This is the per-channel sequence of
`get_adsr_time_scale` calls performed by the parser. -/
def quantizer_run (S : ℚ) (U tempo : ℤ) : List (ℤ × ℕ) → RunningTime → List ℤ × RunningTime
  | [], rt => ([], rt)
  | n :: rest, rt =>
    let step := get_adsr_time_scale S U tempo n.1 n.2 rt
    let tail := quantizer_run S U tempo rest step.2
    (step.1 :: tail.1, tail.2)

/-- Error messages passed to the error handler by `src/mml.c`, one constructor per
distinct C string (for example `invalidOctave` for the string `"Invalid octave"` and
`cantJoinNoNoteBefore` for the join-without-note message). -/
inductive ErrMsg where
  | cantJoinNoNoteBefore
  | cantPackFramePause
  | cantPackFrameWaveform
  | cantPackFrameAdsrTimeScale
  | misplacedChannelSelector
  | invalidOctave
  | invalidLength
  | invalidTempo
  | invalidVolume
  | invalidOctaveStepDown
  | invalidOctaveStepUp
  | invalidMusicArticulation
  | invalidSharp
  | invalidNoteCode
  | unknownCommand
deriving DecidableEq

/-- One call of the error handler: message, line and column, exactly the arguments of
`error_handler(err, line, pos)` in `src/mml.c`. -/
structure ErrRec where
  msg : ErrMsg
  line : ℕ
  col : ℕ
deriving DecidableEq

/-- One `struct seq_frame_t` as filled in by `add_channel_frame`: the waveform
descriptor parameters handed to `voice_wf_setup_def`, plus the two envelope fields. -/
structure SeqFrame where
  wf_frequency : ℤ
  wf_volume : ℤ
  adsr_time_scale_1 : ℤ
  adsr_release_start : ℤ
deriving DecidableEq

/-- Modelled from the spec: `voice_wf_setup_def` belongs to the external waveform
engine (`voice.h`, not among the reviewed sources).  The spec describes it as building
a frequency/volume descriptor into the frame, failing only for unsupported parameter
ranges that it does not further specify; it is modelled as always succeeding with the
recorded parameters.  No settled claim depends on a failure of this builder. -/
def voice_wf_setup_def (frequency volume : ℤ) : Option (ℤ × ℤ) :=
  some (frequency, volume)

/-- Function `add_channel_frame` of `src/mml.c` (lines 52-100).  The frame map is the
list of per-channel frame lists; growing it appends empty channels (the fixed-block
`realloc` capacity management of the C code has no observable effect and is not
modelled).  Errors are the error handler calls followed by `return 0`. -/
def add_channel_frame (U : ℤ) (map : List (List SeqFrame)) (channel : ℕ)
    (frequency time_scale volume : ℤ) (articulation : ℚ) (edit_last_duration : Bool)
    (ln ps : ℕ) : Except ErrRec (List (List SeqFrame)) :=
  let map1 := if map.length ≤ channel
    then map ++ List.replicate (channel + 1 - map.length) []
    else map
  let frames := map1.getD channel []
  if edit_last_duration ∧ frames.length = 0 then
    .error ⟨.cantJoinNoNoteBefore, ln, ps⟩
  else
    match (if frequency = 0 then voice_wf_setup_def 0 0
           else voice_wf_setup_def frequency volume) with
    | none => .error ⟨if frequency = 0 then .cantPackFramePause else .cantPackFrameWaveform,
        ln, ps⟩
    | some wf =>
      let ts := if edit_last_duration
        then time_scale + ((frames.getLastD ⟨0, 0, 0, 0⟩).adsr_time_scale_1 + 1)
        else time_scale
      if 65535 < ts then .error ⟨.cantPackFrameAdsrTimeScale, ln, ps⟩
      else
        let fr : SeqFrame :=
          ⟨wf.1, wf.2, u16 (ts - 1), u8 (u8 (cround (qmul ((U : ℤ) : ℚ) articulation)) - 1)⟩
        if edit_last_duration then .ok (map1.set channel (frames.dropLast ++ [fr]))
        else .ok (map1.set channel (frames ++ [fr]))

/-- Articulation constant `ARTICULATION_STACCATO` (C: `2.5 / 4.0`). -/
def ARTICULATION_STACCATO : ℚ := Rat.divInt 5 8

/-- Articulation constant `ARTICULATION_NORMAL` (C: `7.0 / 8.0`). -/
def ARTICULATION_NORMAL : ℚ := Rat.divInt 7 8

/-- Articulation constant `ARTICULATION_LEGATO` (C: `1.0`). -/
def ARTICULATION_LEGATO : ℚ := 1

/-- One `struct mml_channel_state_t` of `src/mml.c`. -/
structure ChannelState where
  octave : ℤ
  default_length : ℤ
  default_length_dot : ℕ
  tempo : ℤ
  volume : ℤ
  articulation : ℚ
  isActive : Bool
  running_time : RunningTime
deriving DecidableEq

/-- The channel state installed by `enable_channel` for a newly referenced channel. -/
def defaultChannelState : ChannelState :=
  { octave := 4, default_length := 4, default_length_dot := 0, tempo := 120, volume := 63,
    articulation := ARTICULATION_NORMAL, isActive := false, running_time := ⟨0, 0⟩ }

/-- Function `enable_channel` of `src/mml.c` (lines 189-205).  The C code grows the
table to `ch + 1` entries but initializes only slot `ch`, leaving any intermediate
new slots uninitialized; the model fills them with the default record (no settled
claim references such a slot). -/
def enable_channel (chans : List ChannelState) (ch : ℕ) : List ChannelState :=
  if chans.length ≤ ch then
    (chans ++ List.replicate (ch + 1 - chans.length) defaultChannelState).set ch
      { defaultChannelState with isActive := true }
  else
    match chans.get? ch with
    | some c => chans.set ch { c with isActive := true }
    | none => chans

/-- Function `reset_active_state` of `src/mml.c` (lines 208-213): deactivate every
channel except channel 0, then enable channel 0. -/
def reset_active_state (chans : List ChannelState) : List ChannelState :=
  enable_channel
    (match chans with
      | [] => []
      | c :: cs => c :: cs.map (fun x => { x with isActive := false }))
    0

/-- Apply a state update to every active channel, as the `for` loops over
`mml_channel_states` with an `isActive` test do. -/
def set_active_chans (chans : List ChannelState) (f : ChannelState → ChannelState) :
    List ChannelState :=
  chans.map (fun c => if c.isActive then f c else c)

/-- The `<` command loop (lines 338-347): error on the first active channel already at
octave 0, otherwise decrement every active octave. -/
def octave_down : List ChannelState → Except ErrMsg (List ChannelState)
  | [] => .ok []
  | c :: rest =>
    if c.isActive then
      if c.octave = 0 then .error .invalidOctaveStepDown
      else
        match octave_down rest with
        | .error e => .error e
        | .ok tail => .ok ({ c with octave := c.octave - 1 } :: tail)
    else
      match octave_down rest with
      | .error e => .error e
      | .ok tail => .ok (c :: tail)

/-- The `>` command loop (lines 348-357): error on the first active channel already at
octave 9, otherwise increment every active octave. -/
def octave_up : List ChannelState → Except ErrMsg (List ChannelState)
  | [] => .ok []
  | c :: rest =>
    if c.isActive then
      if c.octave = 9 then .error .invalidOctaveStepUp
      else
        match octave_up rest with
        | .error e => .error e
        | .ok tail => .ok ({ c with octave := c.octave + 1 } :: tail)
    else
      match octave_up rest with
      | .error e => .error e
      | .ok tail => .ok (c :: tail)

/-- Function `read_digit` of `src/mml.c` (lines 107-116): read one character (the
terminator counts as a non-digit), advance, and return 255 for a non-digit. -/
def read_digit : List Char → ℤ × List Char
  | [] => (255, [])
  | c :: cs => (if c_char c < 48 ∨ 57 < c_char c then 255 else c_char c - 48, cs)

/-- Character class used by `strtol` for leading whitespace (C `isspace`). -/
def isSpaceStrtol (c : Char) : Bool :=
  c == ' ' || c == '\t' || c == '\n' || c == '\x0b' || c == '\x0c' || c == '\r'

/-- Decimal digit run consumed by `strtol`, with the usual left fold of digits onto an
accumulator; returns the value and the unconsumed suffix. -/
def parseDigits : ℤ → List Char → ℤ × List Char
  | acc, [] => (acc, [])
  | acc, c :: cs =>
    if 48 ≤ c_char c ∧ c_char c ≤ 57 then parseDigits (10 * acc + (c_char c - 48)) cs
    else (acc, c :: cs)

/-- C library `strtol(str, &end, 10)` on the remaining buffer: skip whitespace, accept
an optional sign, consume digits.  Returns the parsed value and the end pointer; when
no conversion is performed the end pointer equals the original string (modelled by
returning the input list unchanged).  Overflow clamping to `LONG_MAX` is not modelled;
no settled claim involves values near that range. -/
def strtol10 (s : List Char) : ℤ × List Char :=
  match s.dropWhile isSpaceStrtol with
  | [] => (0, s)
  | c :: cs =>
    if c = '-' then
      let pr := parseDigits 0 cs
      if pr.2.length = cs.length then (0, s) else (-pr.1, pr.2)
    else if c = '+' then
      let pr := parseDigits 0 cs
      if pr.2.length = cs.length then (0, s) else (pr.1, pr.2)
    else
      let pr := parseDigits 0 (c :: cs)
      if pr.2.length = (c :: cs).length then (0, s) else (pr.1, pr.2)

/-- Function `read_number` of `src/mml.c` (lines 119-128): call `strtol` and return -1
without advancing when the result is zero or nothing was consumed (`!ret || end ==
*str`); otherwise advance the cursor and the column counter.  Note that a parsed value
of zero is therefore reported as -1, i.e. as a failure. -/
def read_number (s : List Char) (ps : ℕ) : ℤ × List Char × ℕ :=
  let r := strtol10 s
  if r.1 = 0 ∨ r.2.length = s.length then (-1, s, ps)
  else (r.1, r.2, ps + (s.length - r.2.length))

/-- Function `get_freq_from_code` of `src/mml.c` (lines 131-133):
`(int)(440.0 * pow(2, (noteCode - 33) / 12.0))`, with the external `pow(2, -)`
supplied as the parameter `pw`. -/
def get_freq_from_code (pw : ℚ → ℚ) (noteCode : ℤ) : ℤ :=
  ratToInt (qmul 440 (pw (qdiv ((noteCode - 33 : ℤ) : ℚ) 12)))

/-- Function `get_freq_from_note` of `src/mml.c` (lines 136-146).  The letter is kept
as its C character code (an integer, since the sharp handling may have decremented it
below the code of the letter a); `%` is the C truncated remainder. -/
def get_freq_from_note (pw : ℚ → ℚ) (note : ℤ) (sharp : Bool) (octave : ℤ) : ℤ :=
  let s1 := Int.tmod (note - 97 + 5) 7 * 2
  let s2 := if 4 < s1 then s1 - 1 else s1
  let s3 := if sharp then s2 + 1 else s2
  get_freq_from_code pw (s3 + octave * 12)

/-- Stand-in for the external C library call `pow(2.0, x)` (floating point, outside the
reviewed sources), used in the concrete theorems.  Every settled claim is independent
of the pitch values; all the claims need is that the computed frequency of a sounding
note is nonzero, which holds for any stand-in with values at least 1. -/
def pow2stub : ℚ → ℚ := fun _ => 2

/-- The mutable locals of the note/pause branch of `mml_parse` (lines 382-443):
the (possibly decremented) letter code, the explicit length, the dot counter, the
sharp flag, the custom-length flag and the explicit note code. -/
structure NoteMods where
  code : ℤ
  length : ℤ
  dot : ℕ
  sharp : Bool
  customLength : Bool
  noteCode : ℤ
deriving DecidableEq

/-- The modifier loop of the note/pause branch (`while (1) { ... }`, lines 390-443):
consume sharp/flat markers (letter form only), digits (note code under `n`, custom
length otherwise) and dots, until a non-matching character.  Errors are the paths that
call the error handler and `return 1`.  The fuel argument exceeds the length of the
remaining buffer, so it never runs out (each step consumes at least one character or
returns). -/
def note_modifier_loop (isPause isNoteCode : Bool) (ln : ℕ) :
    ℕ → List Char → ℕ → NoteMods → Except ErrRec (NoteMods × List Char × ℕ)
  | 0, content, ps, m => .ok (m, content, ps)
  | fuel + 1, content, ps, m =>
    let next := content.headD '\x00'
    if (isPause = false ∧ isNoteCode = false) ∧ (next = '-' ∨ next = '+' ∨ next = '#') then
      let code2 := if next = '-' then m.code - 1 else m.code
      if code2 = 101 ∨ code2 = 98 then .error ⟨.invalidSharp, ln, ps⟩
      else note_modifier_loop isPause isNoteCode ln fuel (content.drop 1) (ps + 1)
        { m with code := code2, sharp := true }
    else if 48 ≤ c_char next ∧ c_char next ≤ 57 then
      if isNoteCode then
        if m.noteCode ≠ -1 then .error ⟨.invalidNoteCode, ln, ps⟩
        else
          let rn := read_number content ps
          if rn.1 < 0 ∨ 84 < rn.1 then .error ⟨.invalidNoteCode, ln, rn.2.2⟩
          else note_modifier_loop isPause isNoteCode ln fuel rn.2.1 rn.2.2
            { m with noteCode := rn.1 }
      else
        if m.customLength then .error ⟨.invalidLength, ln, ps⟩
        else
          let rn := read_number content ps
          if rn.1 < 0 then .error ⟨.invalidLength, ln, rn.2.2⟩
          else note_modifier_loop isPause isNoteCode ln fuel rn.2.1 rn.2.2
            { m with length := rn.1, customLength := true }
    else if next = '.' then
      note_modifier_loop isPause isNoteCode ln fuel (content.drop 1) (ps + 1)
        { m with dot := m.dot + 1 }
    else .ok (m, content, ps)

/-- The per-channel emission loop of the note/pause branch (lines 446-458): for every
active channel, resolve the frequency, quantize the duration and emit the frame.  The
`isPause` flag is threaded because the C code mutates it inside the loop (when an
explicit note code equals 0). -/
def emit_loop (pw : ℚ → ℚ) (S : ℚ) (U : ℤ) (join : Bool) (ln ps : ℕ) (m : NoteMods)
    (isNoteCode : Bool) :
    List ℕ → Bool → List ChannelState → List (List SeqFrame) →
      Except ErrRec (List ChannelState × List (List SeqFrame))
  | [], _, chans, map => .ok (chans, map)
  | i :: is, isPause, chans, map =>
    match chans.get? i with
    | none => emit_loop pw S U join ln ps m isNoteCode is isPause chans map
    | some c =>
      if c.isActive then
        let isPause2 := if isNoteCode ∧ m.noteCode = 0 then true else isPause
        let frequency := if isPause2 then 0
          else if isNoteCode then get_freq_from_code pw m.noteCode
          else get_freq_from_note pw m.code m.sharp c.octave
        let step := get_adsr_time_scale S U c.tempo
          (if m.length < 0 then c.default_length else m.length)
          (if m.length < 0 ∧ m.dot = 0 then c.default_length_dot else m.dot)
          c.running_time
        let chans2 := chans.set i { c with running_time := step.2 }
        match add_channel_frame U map i frequency step.1 c.volume c.articulation join
            ln ps with
        | .error e => .error e
        | .ok map2 => emit_loop pw S U join ln ps m isNoteCode is isPause2 chans2 map2
      else emit_loop pw S U join ln ps m isNoteCode is isPause chans map

/-- The mutable scanner state of `mml_parse`: line and column counters, the channel
state table, the frame map under construction, and the error handler calls made so
far. -/
structure ParseState where
  line : ℕ
  pos : ℕ
  chans : List ChannelState
  map : List (List SeqFrame)
  errors : List ErrRec
deriving DecidableEq

/-- Result of a parse.  `ok` is falling off the end of the buffer (the frame map, the
channel states before they are freed, and all reported errors); `fatal` is a `return 1`
path (the error list includes the final error); `oob` is the comment-skipping loop
(lines 250-260) running past the terminating NUL of the buffer, an out-of-bounds read
in the C code; `fuelOut` is unreachable for the fuel used by `mml_parse`. -/
inductive Outcome where
  | ok (map : List (List SeqFrame)) (chans : List ChannelState) (errors : List ErrRec)
  | fatal (e : ErrRec) (errors : List ErrRec)
  | oob (errors : List ErrRec)
  | fuelOut
deriving DecidableEq

/-- The scanner loop of `mml_parse` (lines 229-463), one iteration per recursive call.
Branch order, column bookkeeping and error handling follow the C code; see the inline
comments for the two places where the C behaviour is surprising (the dead `join` flag
and the fall-through after a misplaced channel selector). -/
def parse_loop (pw : ℚ → ℚ) (S : ℚ) (U : ℤ) : ℕ → List Char → ParseState → Outcome
  | 0, _, _ => .fuelOut
  | _ + 1, [], st => .ok st.map st.chans st.errors
  | fuel + 1, code :: rest, st =>
    let ps := st.pos + 1
    if c_char code = 0 then .ok st.map st.chans st.errors
    else if c_char code ≤ 32 ∨ code = '|' then
      if code = '\n' then
        parse_loop pw S U fuel rest
          { st with line := st.line + 1, pos := 0, chans := reset_active_state st.chans }
      else if code = '\r' then parse_loop pw S U fuel rest { st with pos := ps - 1 }
      else parse_loop pw S U fuel rest { st with pos := ps }
    else if code = '#' ∨ code = ';' then
      -- The C loop `while (*content != '\n') content++;` tests only for a newline:
      -- when the comment is the last line of the buffer it walks past the NUL
      -- terminator, which the model makes explicit as the `oob` outcome.
      match rest.dropWhile (fun c => !(c == '\n')) with
      | [] => .oob st.errors
      | _ :: after =>
        parse_loop pw S U fuel after
          { st with line := st.line + 1, pos := 0, chans := reset_active_state st.chans }
    else if code = '&' then
      -- In the C source `join` is a variable local to the loop body, re-initialized to
      -- 0 at the top of every iteration; the value 1 assigned under this `&` branch is
      -- lost by the `continue`, so nothing is carried to the next iteration.
      parse_loop pw S U fuel rest { st with pos := ps }
    else if 65 ≤ c_char code ∧ c_char code ≤ 90 ∧ ps = 1 then
      let run := rest.takeWhile (fun c => decide (65 ≤ c_char c) && decide (c_char c ≤ 90))
      let chans0 := match st.chans with
        | [] => []
        | c :: cs => { c with isActive := false } :: cs
      let chans1 := (code :: run).foldl (fun cs c => enable_channel cs (c.toNat - 65)) chans0
      parse_loop pw S U fuel (rest.drop run.length)
        { st with pos := ps + run.length, chans := chans1 }
    else
      -- An uppercase letter at any column other than 1 reports "Misplaced channel
      -- selector" WITHOUT returning, and control then falls through to the command
      -- dispatch below, where an uppercase letter matches no command and is reported
      -- again as "Unknown command" with a fatal result (lines 269-283 and 459-462).
      let st1 := if 65 ≤ c_char code ∧ c_char code ≤ 90 then
          { st with errors := st.errors ++ [⟨.misplacedChannelSelector, st.line, ps⟩] }
        else st
      if code = 'o' then
        let rd := read_digit rest
        let ps1 := ps + 1
        if rd.1 = 255 ∨ 6 < rd.1 then
          .fatal ⟨.invalidOctave, st1.line, ps1⟩
            (st1.errors ++ [⟨.invalidOctave, st1.line, ps1⟩])
        else
          parse_loop pw S U fuel rd.2
            { st1 with
                pos := ps1,
                chans := set_active_chans st1.chans (fun c => { c with octave := rd.1 }) }
      else if code = 'l' then
        let rn := read_number rest ps
        if rn.1 < 0 then
          .fatal ⟨.invalidLength, st1.line, rn.2.2⟩
            (st1.errors ++ [⟨.invalidLength, st1.line, rn.2.2⟩])
        else
          let dots := rn.2.1.takeWhile (fun c => c == '.')
          parse_loop pw S U fuel (rn.2.1.drop dots.length)
            { st1 with
                pos := rn.2.2 + dots.length,
                chans := set_active_chans st1.chans
                  (fun c => { c with
                                default_length := rn.1,
                                default_length_dot := dots.length }) }
      else if code = 't' then
        let rn := read_number rest ps
        if rn.1 < 0 then
          .fatal ⟨.invalidTempo, st1.line, rn.2.2⟩
            (st1.errors ++ [⟨.invalidTempo, st1.line, rn.2.2⟩])
        else
          parse_loop pw S U fuel rn.2.1
            { st1 with
                pos := rn.2.2,
                chans := set_active_chans st1.chans (fun c => { c with tempo := rn.1 }) }
      else if code = 'v' then
        let rn := read_number rest ps
        if rn.1 < 0 ∨ 128 < rn.1 then
          .fatal ⟨.invalidVolume, st1.line, rn.2.2⟩
            (st1.errors ++ [⟨.invalidVolume, st1.line, rn.2.2⟩])
        else
          parse_loop pw S U fuel rn.2.1
            { st1 with
                pos := rn.2.2,
                chans := set_active_chans st1.chans (fun c => { c with volume := rn.1 }) }
      else if code = '<' then
        match octave_down st1.chans with
        | .error e => .fatal ⟨e, st1.line, ps⟩ (st1.errors ++ [⟨e, st1.line, ps⟩])
        | .ok cs => parse_loop pw S U fuel rest { st1 with pos := ps, chans := cs }
      else if code = '>' then
        match octave_up st1.chans with
        | .error e => .fatal ⟨e, st1.line, ps⟩ (st1.errors ++ [⟨e, st1.line, ps⟩])
        | .ok cs => parse_loop pw S U fuel rest { st1 with pos := ps, chans := cs }
      else if code = 'm' then
        let nxt := rest.headD '\x00'
        let art : Option ℚ :=
          if nxt = 'l' then some ARTICULATION_LEGATO
          else if nxt = 'n' then some ARTICULATION_NORMAL
          else if nxt = 's' then some ARTICULATION_STACCATO
          else none
        match art with
        | none => .fatal ⟨.invalidMusicArticulation, st1.line, ps⟩
            (st1.errors ++ [⟨.invalidMusicArticulation, st1.line, ps⟩])
        | some a =>
          parse_loop pw S U fuel (rest.drop 1)
            { st1 with
                pos := ps + 1,
                chans := set_active_chans st1.chans (fun c => { c with articulation := a }) }
      else if code = 'p' ∨ code = 'r' ∨ code = 'n' ∨ (97 ≤ c_char code ∧ c_char code ≤ 103)
      then
        let isPause : Bool := code == 'p' || code == 'r'
        -- The C source leaves `isNoteCode` uninitialized when `isPause` holds (the
        -- short-circuit of the dispatch condition skips its assignment); it is modelled
        -- as the intended test `code == 'n'`, which no settled claim can distinguish.
        let isNoteCode : Bool := code == 'n'
        match note_modifier_loop isPause isNoteCode st1.line (rest.length + 1) rest ps
            ⟨c_char code, -1, 0, false, false, -1⟩ with
        | .error e => .fatal e (st1.errors ++ [e])
        | .ok mr =>
          -- The emitter is always called with join = false: the `&` branch above shows
          -- why the C `join` flag can never be 1 when a note is reached.
          match emit_loop pw S U false st1.line mr.2.2 mr.1 isNoteCode
              (List.range st1.chans.length) isPause st1.chans st1.map with
          | .error e => .fatal e (st1.errors ++ [e])
          | .ok cm =>
            parse_loop pw S U fuel mr.2.1
              { st1 with pos := mr.2.2, chans := cm.1, map := cm.2 }
      else
        .fatal ⟨.unknownCommand, st1.line, ps⟩
          (st1.errors ++ [⟨.unknownCommand, st1.line, ps⟩])

/-- Function `mml_parse` of `src/mml.c` (lines 218-471): initialize the state (line 1,
column 0, empty tables, channel 0 active) and run the scanner over the buffer.  The
fuel `content.length + 1` is enough because every iteration consumes at least one
character. -/
def mml_parse (pw : ℚ → ℚ) (S : ℚ) (U : ℤ) (content : List Char) : Outcome :=
  parse_loop pw S U (content.length + 1) content ⟨1, 0, reset_active_state [], [], []⟩

def Outcome.isOk : Outcome → Bool
  | .ok _ _ _ => true
  | _ => false

def Outcome.isFatal : Outcome → Bool
  | .fatal _ _ => true
  | _ => false

def Outcome.isOob : Outcome → Bool
  | .oob _ => true
  | _ => false

/-- Message of the fatal error, when the parse failed. -/
def Outcome.fatalMsg : Outcome → Option ErrMsg
  | .fatal e _ => some e.msg
  | _ => none

/-- All error handler invocations, in order. -/
def Outcome.reported : Outcome → List ErrRec
  | .ok _ _ e => e
  | .fatal _ e => e
  | .oob e => e
  | .fuelOut => []

/-- The stored durations (`adsr_time_scale_1` fields) of the frames of channel 0, for a
successful parse. -/
def Outcome.frames0 : Outcome → Option (List ℤ)
  | .ok m _ _ => some ((m.getD 0 []).map (fun f => f.adsr_time_scale_1))
  | _ => none

/-- Number of channels of the produced frame map, for a successful parse. -/
def Outcome.channelCount : Outcome → Option ℕ
  | .ok m _ _ => some m.length
  | _ => none

/-- Final octave of channel 0, for a successful parse. -/
def Outcome.octave0 : Outcome → Option ℤ
  | .ok _ cs _ => some ((cs.headD defaultChannelState).octave)
  | _ => none

/-- Final tempo of channel 0, for a successful parse. -/
def Outcome.tempo0 : Outcome → Option ℤ
  | .ok _ cs _ => some ((cs.headD defaultChannelState).tempo)
  | _ => none

/-- Final volume of channel 0, for a successful parse. -/
def Outcome.volume0 : Outcome → Option ℤ
  | .ok _ cs _ => some ((cs.headD defaultChannelState).volume)
  | _ => none

/-- Decimal rendering of a natural number, most significant digit first; used to state
properties of the numeric command arguments for every value. -/
def render (k : ℕ) : List Char :=
  (Nat.digits 10 k).reverse.map (fun d => Char.ofNat (48 + d))

/-- Whether a frame emitter call succeeded. -/
def exceptIsOk : Except ErrRec (List (List SeqFrame)) → Bool
  | .ok _ => true
  | .error _ => false

/-- The error reported by a failed frame emitter call. -/
def exceptErr : Except ErrRec (List (List SeqFrame)) → Option ErrRec
  | .ok _ => none
  | .error e => some e

lemma den_nz (q : ℚ) : ((q.den : ℚ)) ≠ 0 := by
  exact_mod_cast q.den_nz

lemma num_eq_mul_den (q : ℚ) : (q.num : ℚ) = q * q.den := by
  have h := Rat.num_div_den q
  rw [div_eq_iff (den_nz q)] at h
  exact h

lemma qadd_eq (a b : ℚ) : qadd a b = a + b := by
  rw [qadd, Rat.divInt_eq_div]
  rw [div_eq_iff (by push_cast; exact mul_ne_zero (den_nz a) (den_nz b))]
  push_cast
  rw [num_eq_mul_den a, num_eq_mul_den b]
  ring

lemma qsub_eq (a b : ℚ) : qsub a b = a - b := by
  rw [qsub, Rat.divInt_eq_div]
  rw [div_eq_iff (by push_cast; exact mul_ne_zero (den_nz a) (den_nz b))]
  push_cast
  rw [num_eq_mul_den a, num_eq_mul_den b]
  ring

lemma qmul_eq (a b : ℚ) : qmul a b = a * b := by
  rw [qmul, Rat.divInt_eq_div]
  rw [div_eq_iff (by push_cast; exact mul_ne_zero (den_nz a) (den_nz b))]
  push_cast
  rw [num_eq_mul_den a, num_eq_mul_den b]
  ring

lemma qdiv_eq (a b : ℚ) : qdiv a b = a / b := by
  rcases eq_or_ne b 0 with hb | hb
  · subst hb
    rw [qdiv, Rat.divInt_eq_div]
    norm_num
  · have hbn : (b.num : ℚ) ≠ 0 := by
      intro h
      apply hb
      have h2 : b.num = 0 := by exact_mod_cast h
      exact Rat.zero_of_num_zero h2
    rw [qdiv, Rat.divInt_eq_div]
    push_cast
    rw [div_eq_div_iff (mul_ne_zero (den_nz a) hbn) hb]
    rw [num_eq_mul_den a, num_eq_mul_den b]
    ring

lemma qpow_eq (a : ℚ) (n : ℕ) : qpow a n = a ^ n := by
  induction n with
  | zero => rfl
  | succ n ih => rw [qpow, qmul_eq, ih, pow_succ]

lemma half_eq : (Rat.divInt 1 2 : ℚ) = 1/2 := by
  rw [Rat.divInt_eq_div]
  norm_num

lemma cround_eq (q : ℚ) :
    cround q = if 0 ≤ q then Rat.floor (q + 1/2) else -Rat.floor (1/2 - q) := by
  rw [cround, qadd_eq, qsub_eq, half_eq]

lemma rat_floor_le (q : ℚ) : ((Rat.floor q : ℤ) : ℚ) ≤ q := Rat.le_floor.mp le_rfl

lemma lt_rat_floor_add_one (q : ℚ) : q < Rat.floor q + 1 := by
  by_contra h
  push_neg at h
  have h2 : ((Rat.floor q + 1 : ℤ) : ℚ) ≤ q := by push_cast; linarith
  have := Rat.le_floor.mpr h2
  omega

lemma abs_sub_cround_le (q : ℚ) : |q - (cround q : ℚ)| ≤ 1/2 := by
  rw [cround_eq]
  split
  · have h1 := rat_floor_le (q + 1/2)
    have h2 := lt_rat_floor_add_one (q + 1/2)
    rw [abs_le]
    have h2' : q + 1/2 < (Rat.floor (q + 1/2) : ℚ) + 1 := by exact_mod_cast h2
    constructor <;> linarith
  · have h1 := rat_floor_le (1/2 - q)
    have h2 := lt_rat_floor_add_one (1/2 - q)
    rw [abs_le]
    have h2' : 1/2 - q < (Rat.floor (1/2 - q) : ℚ) + 1 := by exact_mod_cast h2
    push_cast
    constructor <;> linarith

/-- After any single call of `get_adsr_time_scale`, the integer accumulator is within
`U` (in fact `U/2`) of the rounded product of the seconds accumulator and the sample
rate, whatever the incoming state was. -/
lemma get_adsr_time_scale_bound (S : ℚ) (U tempo length : ℤ) (dots : ℕ)
    (rt : RunningTime) (hU : 0 < U) :
    |cround ((get_adsr_time_scale S U tempo length dots rt).2.seconds * S)
      - (get_adsr_time_scale S U tempo length dots rt).2.time_units| ≤ U := by
  unfold get_adsr_time_scale
  simp only [qadd_eq, qdiv_eq, qmul_eq]
  set sec2 := rt.seconds + ((60 * 4 : ℤ) : ℚ) / ((tempo : ℤ) : ℚ) / lengthWithDots length dots
    with hsec2
  set T : ℤ := cround (sec2 * S) with hT
  set x : ℚ := ((T - rt.time_units : ℤ) : ℚ) / ((U : ℤ) : ℚ) with hx
  set ts : ℤ := cround x with hts
  have hUQ : (0 : ℚ) < (U : ℚ) := by exact_mod_cast hU
  have habs : |x - (ts : ℚ)| ≤ 1/2 := abs_sub_cround_le x
  have hkey : |(T : ℚ) - ((rt.time_units : ℚ) + (ts : ℚ) * (U : ℚ))| ≤ (U : ℚ) := by
    have hrw : (T : ℚ) - ((rt.time_units : ℚ) + (ts : ℚ) * (U : ℚ))
        = (U : ℚ) * (x - (ts : ℚ)) := by
      rw [hx]
      push_cast
      field_simp
      ring
    rw [hrw, abs_mul, abs_of_pos hUQ]
    calc (U : ℚ) * |x - (ts : ℚ)| ≤ (U : ℚ) * (1/2) := by
          exact mul_le_mul_of_nonneg_left habs (le_of_lt hUQ)
      _ ≤ (U : ℚ) := by linarith
  have hgoal : |T - (rt.time_units + ts * U)| ≤ U := by
    have h2 := hkey
    rw [show ((rt.time_units : ℚ) + (ts : ℚ) * (U : ℚ))
        = ((rt.time_units + ts * U : ℤ) : ℚ) by push_cast; ring] at h2
    rw [← Int.cast_sub, ← Int.cast_abs] at h2
    exact_mod_cast h2
  exact hgoal

/-- The integer accumulator advances by exactly `U` times the sum of the returned
time scales. -/
lemma quantizer_run_units (S : ℚ) (U tempo : ℤ) :
    ∀ (l : List (ℤ × ℕ)) (rt : RunningTime),
      (quantizer_run S U tempo l rt).2.time_units
        = rt.time_units + U * ((quantizer_run S U tempo l rt).1).sum := by
  intro l
  induction l with
  | nil => intro rt; simp [quantizer_run]
  | cons n rest ih =>
    intro rt
    simp only [quantizer_run, List.sum_cons]
    rw [ih]
    show (get_adsr_time_scale S U tempo n.1 n.2 rt).2.time_units + _ = _
    simp only [get_adsr_time_scale]
    ring

/-- The drift bound is preserved by any run of the quantizer. -/
lemma quantizer_run_bound (S : ℚ) (U tempo : ℤ) (hU : 0 < U) :
    ∀ (l : List (ℤ × ℕ)) (rt : RunningTime),
      |cround (rt.seconds * S) - rt.time_units| ≤ U →
      |cround ((quantizer_run S U tempo l rt).2.seconds * S)
        - (quantizer_run S U tempo l rt).2.time_units| ≤ U := by
  intro l
  induction l with
  | nil => intro rt h; simpa [quantizer_run] using h
  | cons n rest ih =>
    intro rt _
    simp only [quantizer_run]
    exact ih _ (get_adsr_time_scale_bound S U tempo n.1 n.2 rt hU)

/-- C2 (confirmed): for every channel, after every note or rest, the integer time-unit
accumulator equals `U` times the sum of all time scales handed to the frame emitter for
that channel (their total duration in time units), and it differs from
`round(running_seconds * sample_rate)` by at most one `ADSR_TIME_UNITS` (`U`).  This
holds at every point in the sequence because `notes` ranges over all finite note
sequences (so in particular over every prefix of a compile) and every channel starts
from accumulators `(0, 0)`.  The hypotheses `0 < tempo` and positive note lengths match
the states reachable in the parser (tempo is initialized to 120 and `t0` is rejected;
note lengths are read as positive numbers). -/
theorem c2_quantizer_drift_bound (S : ℚ) (U tempo : ℤ) (notes : List (ℤ × ℕ))
    (hU : 0 < U) (_htempo : 0 < tempo) (_hlen : ∀ p ∈ notes, 0 < p.1) :
    (quantizer_run S U tempo notes ⟨0, 0⟩).2.time_units
        = U * ((quantizer_run S U tempo notes ⟨0, 0⟩).1).sum
      ∧ |cround ((quantizer_run S U tempo notes ⟨0, 0⟩).2.seconds * S)
          - (quantizer_run S U tempo notes ⟨0, 0⟩).2.time_units| ≤ U := by
  constructor
  · simpa using quantizer_run_units S U tempo notes ⟨0, 0⟩
  · apply quantizer_run_bound S U tempo hU notes ⟨0, 0⟩
    have h0 : cround ((0 : ℚ) * S) = 0 := by
      rw [zero_mul]
      decide
    simp [h0]
    exact le_of_lt hU

/-- Witness for C2 at a concrete input: a quarter note then a dotted eighth at tempo
120, sample rate 8000, 16 time units per envelope. -/
theorem c2_quantizer_drift_bound_witness :
    (quantizer_run 8000 16 120 [(4, 0), (8, 1)] ⟨0, 0⟩).2.time_units
        = 16 * ((quantizer_run 8000 16 120 [(4, 0), (8, 1)] ⟨0, 0⟩).1).sum
      ∧ |cround ((quantizer_run 8000 16 120 [(4, 0), (8, 1)] ⟨0, 0⟩).2.seconds * 8000)
          - (quantizer_run 8000 16 120 [(4, 0), (8, 1)] ⟨0, 0⟩).2.time_units| ≤ 16 :=
  c2_quantizer_drift_bound 8000 16 120 [(4, 0), (8, 1)] (by decide) (by decide) (by decide)


lemma c_char_digitChar {d : ℕ} (h : d < 10) :
    c_char (Char.ofNat (48 + d)) = 48 + (d : ℤ) := by
  interval_cases d <;> decide

lemma isSpace_digitChar {d : ℕ} (h : d < 10) :
    isSpaceStrtol (Char.ofNat (48 + d)) = false := by
  interval_cases d <;> decide

lemma digitChar_ne_minus {d : ℕ} (h : d < 10) : Char.ofNat (48 + d) ≠ '-' := by
  interval_cases d <;> decide

lemma digitChar_ne_plus {d : ℕ} (h : d < 10) : Char.ofNat (48 + d) ≠ '+' := by
  interval_cases d <;> decide

lemma parseDigits_digits :
    ∀ (l : List ℕ), (∀ d ∈ l, d < 10) → ∀ acc : ℤ,
      parseDigits acc (l.map (fun d => Char.ofNat (48 + d)))
        = (l.foldl (fun (a : ℤ) (d : ℕ) => 10 * a + (d : ℤ)) acc, []) := by
  intro l
  induction l with
  | nil => intro _ acc; rfl
  | cons d rest ih =>
    intro h acc
    have hd : d < 10 := h d (by simp)
    simp only [List.map_cons, parseDigits]
    rw [if_pos (by rw [c_char_digitChar hd]; omega)]
    rw [c_char_digitChar hd]
    have he : (48 : ℤ) + (d : ℤ) - 48 = (d : ℤ) := by ring
    rw [he]
    rw [ih (fun x hx => h x (by simp [hx])) (10 * acc + (d : ℤ))]
    simp

lemma foldl_digits_eq (k : ℕ) :
    ((Nat.digits 10 k).reverse.foldl (fun (a : ℤ) (d : ℕ) => 10 * a + (d : ℤ)) 0)
      = (k : ℤ) := by
  rw [List.foldl_reverse]
  have hfold : ∀ l : List ℕ,
      List.foldr (fun (x : ℕ) (y : ℤ) => 10 * y + (x : ℤ)) 0 l
        = ((Nat.ofDigits 10 l : ℕ) : ℤ) := by
    intro l
    induction l with
    | nil => simp [Nat.ofDigits]
    | cons d rest ih =>
      rw [List.foldr_cons, ih, Nat.ofDigits_cons]
      push_cast
      ring
  rw [hfold]
  exact_mod_cast Nat.ofDigits_digits 10 k

lemma render_digits_lt (k : ℕ) : ∀ d ∈ (Nat.digits 10 k).reverse, d < 10 := by
  intro d hd
  rw [List.mem_reverse] at hd
  exact Nat.digits_lt_base (by norm_num) hd

lemma render_ne_nil {k : ℕ} (hk : 1 ≤ k) : render k ≠ [] := by
  rw [render]
  simp only [ne_eq, List.map_eq_nil_iff, List.reverse_eq_nil_iff]
  exact Nat.digits_ne_nil_iff_ne_zero.mpr (by omega)

lemma strtol10_render {k : ℕ} (hk : 1 ≤ k) : strtol10 (render k) = ((k : ℤ), []) := by
  have hne := render_ne_nil hk
  have hlt := render_digits_lt k
  rw [render] at hne ⊢
  rcases hl : (Nat.digits 10 k).reverse with _ | ⟨d, ds⟩
  · rw [hl] at hne; simp at hne
  · rw [hl] at hlt
    have hd : d < 10 := hlt d (by simp)
    rw [strtol10]
    simp only [List.map_cons]
    rw [List.dropWhile_cons]
    rw [isSpace_digitChar hd]
    simp only [Bool.false_eq_true, if_false, ite_false]
    rw [if_neg (digitChar_ne_minus hd), if_neg (digitChar_ne_plus hd)]
    have hp := parseDigits_digits (d :: ds) hlt 0
    simp only [List.map_cons] at hp
    rw [hp]
    simp only [List.length_nil, List.length_cons]
    rw [if_neg (by simp)]
    have hfd := foldl_digits_eq k
    rw [hl] at hfd
    rw [hfd]

lemma read_number_render {k : ℕ} (hk : 1 ≤ k) (ps : ℕ) :
    read_number (render k) ps = ((k : ℤ), [], ps + (render k).length) := by
  rw [read_number, strtol10_render hk]
  have h1 : ¬((k : ℤ) = 0 ∨ ([] : List Char).length = (render k).length) := by
    push_neg
    constructor
    · exact Int.natCast_ne_zero.mpr (by omega)
    · simp only [List.length_nil]
      intro hc
      exact render_ne_nil hk (List.length_eq_zero.mp hc.symm)
  simp only [if_neg h1]
  simp

lemma parse_loop_nil (pw : ℚ → ℚ) (S : ℚ) (U : ℤ) (n : ℕ) (st : ParseState) :
    parse_loop pw S U (n + 1) [] st = .ok st.map st.chans st.errors := rfl

/-- One unfolding step of the scanner on an input that starts with the `v` command, by
definitional reduction (the concrete dispatching work is done by the kernel, the
remaining number argument stays symbolic). -/
lemma parse_v_init (pw : ℚ → ℚ) (S : ℚ) (U : ℤ) (w : List Char) (n : ℕ) :
    parse_loop pw S U (n + 2) ('v' :: w) ⟨1, 0, reset_active_state [], [], []⟩
      = (if (read_number w 1).1 < 0 ∨ 128 < (read_number w 1).1 then
          Outcome.fatal ⟨.invalidVolume, 1, (read_number w 1).2.2⟩
            [⟨.invalidVolume, 1, (read_number w 1).2.2⟩]
         else parse_loop pw S U (n + 1) (read_number w 1).2.1
           ⟨1, (read_number w 1).2.2,
            [⟨4, 4, 0, 120, (read_number w 1).1, ARTICULATION_NORMAL, true, ⟨0, 0⟩⟩],
            [], []⟩) := by
  rfl

/-- One unfolding step of the scanner on an input that starts with the `t` command. -/
lemma parse_t_init (pw : ℚ → ℚ) (S : ℚ) (U : ℤ) (w : List Char) (n : ℕ) :
    parse_loop pw S U (n + 2) ('t' :: w) ⟨1, 0, reset_active_state [], [], []⟩
      = (if (read_number w 1).1 < 0 then
          Outcome.fatal ⟨.invalidTempo, 1, (read_number w 1).2.2⟩
            [⟨.invalidTempo, 1, (read_number w 1).2.2⟩]
         else parse_loop pw S U (n + 1) (read_number w 1).2.1
           ⟨1, (read_number w 1).2.2,
            [⟨4, 4, 0, (read_number w 1).1, 63, ARTICULATION_NORMAL, true, ⟨0, 0⟩⟩],
            [], []⟩) := by
  rfl

lemma grow_channel_lt (map : List (List SeqFrame)) (channel : ℕ) :
    channel < (if map.length ≤ channel
      then map ++ List.replicate (channel + 1 - map.length) ([] : List SeqFrame)
      else map).length := by
  split
  next h => simp; omega
  next h => omega

/-- C1 (code bug): the claim (and the spec) say that `"c4&c8"` compiles to a single
frame on channel 0 whose duration is the sum of the quarter-note and eighth-note
time-unit counts.  The code cannot do this: `join` is declared inside the scanner loop
body (line 263 of `src/mml.c`) and so is re-initialized to 0 on every iteration; the
value set under `&` is lost at the `continue`, and the whole `edit_last_duration` path
of `add_channel_frame` (including its own error message) is unreachable, although it
was clearly intended to be used.  Evaluating the compiler at the failing input (sample
rate 8000, `ADSR_TIME_UNITS` 16, where a quarter note is 250 units and an eighth note
125): the map has one channel holding TWO frames with stored durations 249 and 124
(the fields hold the value minus 1), instead of one frame holding 374. -/
theorem c1_join_flag_dead :
    (mml_parse pow2stub 8000 16 ("c4&c8".toList)).channelCount = some 1
    ∧ (mml_parse pow2stub 8000 16 ("c4&c8".toList)).frames0 = some [249, 124] := by
  decide

/-- C3 (code bug): the claim (and line 448 of the source, which maps an explicit note
code 0 to a rest) says `"n0"` emits a frame with frequency 0 and no error.  But
`read_number` returns -1 whenever `strtol` produces 0 (`if (!ret || end == *str)`), so
the digit 0 can never reach the rest branch: `"n0"` aborts with "Invalid note code".
The second conjunct isolates the root cause: reading the digits `"0"` yields -1. -/
theorem c3_n0_rejected :
    (mml_parse pow2stub 8000 16 ("n0".toList)).fatalMsg = some .invalidNoteCode
    ∧ (read_number ("0".toList) 1).1 = -1 := by
  decide

/-- C4 (counterexample): the claim says the input `"t0"` is permitted by parsing
without error.  In fact `read_number` maps a parsed zero to -1, and the tempo branch
rejects it with "Invalid tempo" and a failed compile. -/
theorem c4_t0_rejected :
    (mml_parse pow2stub 8000 16 ("t0".toList)).fatalMsg = some .invalidTempo := by
  decide

/-- C4 (corrected): the `t<number>` command accepts exactly the numbers greater than
or equal to 1 — for every positive `k`, compiling `t` followed by the decimal digits
of `k` succeeds and sets the tempo of the active channel to `k`.  Zero is rejected
(see the counterexample). -/
theorem c4_tempo_accepts_positive (pw : ℚ → ℚ) (S : ℚ) (U : ℤ) (k : ℕ) (hk : 1 ≤ k) :
    (mml_parse pw S U ('t' :: render k)).tempo0 = some (k : ℤ) := by
  rw [mml_parse]
  have hlen : ('t' :: render k).length + 1 = ((render k).length) + 2 := by
    simp [List.length_cons]
  rw [hlen, parse_t_init, read_number_render hk 1]
  have hcond : ¬((k : ℤ) < 0) := by
    push_neg
    exact_mod_cast Nat.zero_le k
  simp only [hcond, if_false, ite_false, reduceIte, parse_loop_nil]
  rfl

/-- Witness for C4 at the concrete tempo 240. -/
theorem c4_tempo_accepts_positive_witness :
    (mml_parse pow2stub 8000 16 ('t' :: render 240)).tempo0 = some ((240 : ℕ) : ℤ) :=
  c4_tempo_accepts_positive pow2stub 8000 16 240 (by decide)

/-- C5 (counterexample): the claim says `"v0"` sets the volume of every active channel
without error.  In fact `read_number` maps a parsed zero to -1, and the volume branch
rejects it with "Invalid volume" and a failed compile. -/
theorem c5_v0_rejected :
    (mml_parse pow2stub 8000 16 ("v0".toList)).fatalMsg = some .invalidVolume := by
  decide

/-- C5 (corrected): the `v<number>` command accepts exactly the numbers 1..128 — for
`1 ≤ k ≤ 128` compiling `v` followed by the decimal digits of `k` succeeds and sets
the volume of the active channel to `k`, while every `k > 128` is rejected with
"Invalid volume" and a failed compile.  `v0` is also rejected (see the
counterexample), because `read_number` cannot return 0. -/
theorem c5_volume_range (pw : ℚ → ℚ) (S : ℚ) (U : ℤ) (k : ℕ) :
    ((1 ≤ k ∧ k ≤ 128) → (mml_parse pw S U ('v' :: render k)).volume0 = some (k : ℤ))
    ∧ (128 < k → (mml_parse pw S U ('v' :: render k)).fatalMsg = some .invalidVolume) := by
  have hlen : ('v' :: render k).length + 1 = ((render k).length) + 2 := by
    simp [List.length_cons]
  constructor
  · rintro ⟨hk, hk2⟩
    rw [mml_parse, hlen, parse_v_init, read_number_render hk 1]
    have hcond : ¬((k : ℤ) < 0 ∨ 128 < (k : ℤ)) := by
      push_neg
      constructor
      · exact_mod_cast Nat.zero_le k
      · exact_mod_cast hk2
    simp only [hcond, if_false, ite_false, reduceIte, parse_loop_nil]
    rfl
  · intro hk2
    rw [mml_parse, hlen, parse_v_init, read_number_render (by omega) 1]
    have hcond : ((k : ℤ) < 0 ∨ 128 < (k : ℤ)) := by
      right
      exact_mod_cast hk2
    simp only [hcond, if_true, ite_true, reduceIte]
    rfl

/-- Witness for C5 at the boundary volumes 128 (accepted) and 129 (rejected). -/
theorem c5_volume_range_witness :
    (mml_parse pow2stub 8000 16 ('v' :: render 128)).volume0 = some ((128 : ℕ) : ℤ)
    ∧ (mml_parse pow2stub 8000 16 ('v' :: render 129)).fatalMsg = some .invalidVolume :=
  ⟨(c5_volume_range pow2stub 8000 16 128).1 (by decide),
   (c5_volume_range pow2stub 8000 16 129).2 (by decide)⟩

/-- C6 (counterexample): the claim says lowering the letters e or b (inputs `"e-"` and
`"b-"`) reports "Invalid sharp" and aborts.  In fact both compile successfully: the
flat marker first shifts the letter down and only then checks the shifted letter
against e and b, so `e-` becomes d-sharp and `b-` becomes a-sharp. -/
theorem c6_e_flat_accepted :
    (mml_parse pow2stub 8000 16 ("e-".toList)).isOk = true
    ∧ (mml_parse pow2stub 8000 16 ("b-".toList)).isOk = true := by
  decide

/-- C6 (corrected): the flat marker `-` lowers a letter-form note by shifting to the
previous letter with a sharp applied; the error "Invalid sharp" is reported exactly
when the SHIFTED letter is e or b, i.e. for the inputs `"f-"` and `"c-"` (f-flat and
c-flat have no previous-letter-sharp spelling), while lowering any other letter —
including e and b themselves — is accepted and emits one frame. -/
theorem c6_flat_boundary :
    (mml_parse pow2stub 8000 16 ("f-".toList)).fatalMsg = some .invalidSharp
    ∧ (mml_parse pow2stub 8000 16 ("c-".toList)).fatalMsg = some .invalidSharp
    ∧ (mml_parse pow2stub 8000 16 ("a-".toList)).isOk = true
    ∧ (mml_parse pow2stub 8000 16 ("d-".toList)).isOk = true
    ∧ (mml_parse pow2stub 8000 16 ("g-".toList)).isOk = true
    ∧ (mml_parse pow2stub 8000 16 ("e-".toList)).frames0 = some [249]
    ∧ (mml_parse pow2stub 8000 16 ("b-".toList)).frames0 = some [249] := by
  decide

/-- C7 (counterexample): the claim says a misplaced channel selector does not force
termination and the compile continues parsing past it.  It does not: the parse of
`" Ac"` (uppercase A at column 2) returns failure, so the `c` after the selector is
never processed. -/
theorem c7_misplaced_selector_aborts :
    (mml_parse pow2stub 8000 16 (" Ac".toList)).isFatal = true := by
  decide

/-- C7 (corrected): an uppercase letter at a column other than 1 is reported as
"Misplaced channel selector" WITHOUT returning at the report site, but the same
character then falls through to the command dispatcher, matches no command, and is
reported again as "Unknown command" with a fatal result — so the compile does return
failure and does not continue past the misplaced selector.  The theorem shows the full
outcome for `" Ac"`: both reports at line 1 column 2, then failure. -/
theorem c7_misplaced_selector_behavior :
    mml_parse pow2stub 8000 16 (" Ac".toList)
      = .fatal ⟨.unknownCommand, 1, 2⟩
          [⟨.misplacedChannelSelector, 1, 2⟩, ⟨.unknownCommand, 1, 2⟩] := by
  decide

/-- C8 (confirmed): the `o` command rejects every digit greater than 6 with "Invalid
octave", while `>` increments the octave and only errors ("Invalid octave step up")
when the octave is already 9; so octaves 7, 8 and 9 are reachable via `>` (from `o6`)
but not via `o`. -/
theorem c8_octave_asymmetry :
    (mml_parse pow2stub 8000 16 ("o7".toList)).fatalMsg = some .invalidOctave
    ∧ (mml_parse pow2stub 8000 16 ("o8".toList)).fatalMsg = some .invalidOctave
    ∧ (mml_parse pow2stub 8000 16 ("o9".toList)).fatalMsg = some .invalidOctave
    ∧ (mml_parse pow2stub 8000 16 ("o6".toList)).octave0 = some 6
    ∧ (mml_parse pow2stub 8000 16 ("o6>".toList)).octave0 = some 7
    ∧ (mml_parse pow2stub 8000 16 ("o6>>".toList)).octave0 = some 8
    ∧ (mml_parse pow2stub 8000 16 ("o6>>>".toList)).octave0 = some 9
    ∧ (mml_parse pow2stub 8000 16 ("o6>>>>".toList)).fatalMsg = some .invalidOctaveStepUp
    := by
  decide

/-- C9 (counterexample): the claim says every original duration value in 1..65536 is
accepted and any value outside 1..65536 causes the fatal encoding error.  Both
directions fail at the boundary: the check in `add_channel_frame` is
`time_scale > UINT16_MAX` BEFORE the decrement, so the value 65536 (inside the claimed
range) is rejected, and the value 0 (outside the claimed range) is accepted without
error (its stored field wraps). -/
theorem c9_65536_rejected :
    exceptErr (add_channel_frame 16 [] 0 880 65536 63 ARTICULATION_NORMAL false 1 1)
      = some ⟨.cantPackFrameAdsrTimeScale, 1, 1⟩
    ∧ exceptIsOk (add_channel_frame 16 [] 0 880 0 63 ARTICULATION_NORMAL false 1 1)
        = true := by
  decide

/-- C9 (corrected): a frame duration is stored as (value − 1) in the 16-bit
`adsr_time_scale_1` field, and the append-mode frame emitter accepts exactly the
values up to 65535: every `time_scale > 65535` causes the fatal error (the C check is
`time_scale > UINT16_MAX` before the decrement, so 65536 is already rejected), and
every `time_scale ≤ 65535` — with no lower bound enforced — is accepted, the appended
frame storing `(time_scale − 1)` reduced mod 2^16. -/
theorem c9_time_scale_bound (U : ℤ) (map : List (List SeqFrame)) (channel : ℕ)
    (frequency time_scale volume : ℤ) (articulation : ℚ) (ln ps : ℕ) :
    (65535 < time_scale →
      add_channel_frame U map channel frequency time_scale volume articulation false ln ps
        = .error ⟨.cantPackFrameAdsrTimeScale, ln, ps⟩)
    ∧ (time_scale ≤ 65535 →
      ∃ m, add_channel_frame U map channel frequency time_scale volume articulation false
            ln ps = .ok m
        ∧ ((m.getD channel []).getLast?).map (fun f => f.adsr_time_scale_1)
            = some (u16 (time_scale - 1))) := by
  have hlt := grow_channel_lt map channel
  unfold add_channel_frame
  simp only [Bool.false_eq_true, false_and, if_false, ite_false]
  constructor
  · intro h
    by_cases hf : frequency = 0 <;> simp [hf, voice_wf_setup_def, if_pos h]
  · intro h
    have hnot : ¬ 65535 < time_scale := by omega
    by_cases hf : frequency = 0 <;>
      simp only [hf, voice_wf_setup_def, if_true, ite_true, if_neg hnot, ite_false,
        reduceIte] <;>
      refine ⟨_, rfl, ?_⟩ <;>
      · rw [List.getD_eq_getElem?_getD, List.getElem?_set_eq_of_lt _ hlt]
        simp [List.getLast?_concat]

/-- Witness for C9 at the concrete durations 70000 (rejected) and 300 (accepted). -/
theorem c9_time_scale_bound_witness :
    add_channel_frame 16 [] 0 880 70000 63 ARTICULATION_NORMAL false 1 1
      = .error ⟨.cantPackFrameAdsrTimeScale, 1, 1⟩
    ∧ exceptIsOk (add_channel_frame 16 [] 0 880 300 63 ARTICULATION_NORMAL false 1 1)
        = true :=
  ⟨(c9_time_scale_bound 16 [] 0 880 70000 63 ARTICULATION_NORMAL 1 1).1 (by decide),
   by
    obtain ⟨m, hm, _⟩ :=
      (c9_time_scale_bound 16 [] 0 880 300 63 ARTICULATION_NORMAL 1 1).2 (by decide)
    rw [hm]
    rfl⟩

/-- C10 (code bug): the claim says the scanner never reads past the terminated buffer,
in particular that the comment-skipping loop stops at the end of the buffer.  The loop
at line 252 of `src/mml.c` advances the cursor until it finds a newline, testing
nothing else: when the final line of the input is a comment with no trailing newline,
it walks past the NUL terminator — an out-of-bounds read, modelled as the
distinguished `oob` outcome.  Both a bare comment and a comment after valid notes
trigger it. -/
theorem c10_comment_out_of_bounds :
    mml_parse pow2stub 8000 16 ("#".toList) = .oob []
    ∧ (mml_parse pow2stub 8000 16 ("c4 ; trailing comment".toList)).isOob = true := by
  decide
